import Mathlib

/-!
Verification of the `DeFiBuilderGameFHE` contract (embedded at the end of
`frontend/web/src/App.tsx`).

The contract is a confidential solvency ledger: permissioned providers submit
encrypted collateral/debt values into batches, the contract keeps homomorphic
running totals per batch, derives an encrypted solvency flag
(`totalCollateral >= totalDebt`), and reveals that flag through an
asynchronous, replay-protected, state-bound decryption callback.

Modelling choices (shallow embedding):
* `euint32` / `ebool` ciphertext handles are modelled as a pair of a
  `handle` (the opaque ciphertext identifier returned by `toBytes32`;
  handle `0` means uninitialized, matching `FHE.isInitialized`) and the
  plaintext `val` it encrypts.  Every FHE operation (`asEuint32`, `add`,
  `ge`, `asEbool`) allocates a fresh nonzero handle from the coprocessor
  counter `fheCounter` carried in the state; `add` acts on plaintexts
  modulo `2 ^ 32`, `ge` compares plaintexts.
* `keccak256(abi.encode(cts, address(this)))` in `_hashCiphertexts` is
  idealized as the injective pairing `(cts, address)`; the default (zero)
  `bytes32` stored in an untouched `DecryptionContext` is modelled as
  `([], 0)`, which no computed hash equals (computed hashes always carry a
  singleton identifier list).
* `FHE.requestDecryption` returns a fresh request identifier from the
  external gateway; this is modelled by the counter `nextRequestId`.
* `FHE.checkSignatures` is an external verification capability; it is
  passed to the callback as an opaque boolean-valued function `checkSigs`.
* Every external function takes `msg.sender` (and, where the body reads
  it, `block.timestamp`) as an explicit argument.  A revert is modelled as
  `Except.error` carrying the contract's named error; a reverted call
  leaves no successor state, so failed calls change nothing.
-/

namespace DeFiBuilderGameFHE

/-- Addresses are modelled as natural numbers. -/
abbrev Addr := Nat

/-- Model of a Solidity `euint32` ciphertext: the opaque handle (its
`toBytes32` identifier, `0` when uninitialized) together with the 32-bit
plaintext it encrypts. -/
structure Euint32 where
  handle : Nat
  val : Nat
deriving DecidableEq

/-- Model of `FHE.isInitialized` on `euint32`: the zero handle is the
uninitialized default of a Solidity mapping slot. -/
def Euint32.isInitialized (c : Euint32) : Bool := c.handle != 0

/-- Model of `euint32.toBytes32()`: the opaque ciphertext identifier. -/
def Euint32.toBytes32 (c : Euint32) : Nat := c.handle

/-- Default value of an untouched `euint32` mapping slot. -/
def euint32Uninit : Euint32 := ⟨0, 0⟩

/-- Model of a Solidity `ebool` ciphertext, analogous to `Euint32`. -/
structure Ebool where
  handle : Nat
  val : Bool
deriving DecidableEq

/-- Model of `FHE.isInitialized` on `ebool`. -/
def Ebool.isInitialized (c : Ebool) : Bool := c.handle != 0

/-- Model of `ebool.toBytes32()`. -/
def Ebool.toBytes32 (c : Ebool) : Nat := c.handle

/-- Default value of an untouched `ebool` mapping slot. -/
def eboolUninit : Ebool := ⟨0, false⟩

/-- Idealized value of `keccak256(abi.encode(cts, address(this)))`: a
cryptographic hash is collision-free, so it is modelled as the injective
pairing of its preimage. -/
abbrev StateHash := List Nat × Nat

/-- Model of the contract's `_hashCiphertexts` over the ciphertext
identifier list and `address(this)`. -/
def _hashCiphertexts (cts : List Nat) (self : Nat) : StateHash := (cts, self)

/-- The `DecryptionContext` struct stored per decryption request id. -/
structure DecryptionContext where
  batchId : Nat
  stateHash : StateHash
  processed : Bool
deriving DecidableEq

/-- Default (all-zero) `DecryptionContext` of an untouched mapping slot. -/
def defaultContext : DecryptionContext := ⟨0, ([], 0), false⟩

/-- The contract's named errors (its `error` declarations). -/
inductive Err where
  | NotOwner
  | NotProvider
  | PausedState
  | CooldownActive
  | BatchClosedOrNonExistent
  | ReplayAttempt
  | StateMismatch
  | InvalidProof
  | NotInitialized
  | InvalidBatchOperation
deriving DecidableEq

/-- The full storage of `DeFiBuilderGameFHE`, plus the two external
counters described in the module docstring (`fheCounter` for fresh
ciphertext handles, `nextRequestId` for fresh gateway request ids) and
`address(this)` as `selfAddr`. -/
structure State where
  owner : Addr
  isProvider : Addr → Bool
  lastSubmissionTime : Addr → Nat
  lastDecryptionRequestTime : Addr → Nat
  cooldownSeconds : Nat
  paused : Bool
  currentBatchId : Nat
  batchOpen : Bool
  decryptionContexts : Nat → DecryptionContext
  encryptedCollateralAmounts : Nat → Addr → Euint32
  encryptedDebtAmounts : Nat → Addr → Euint32
  totalEncryptedCollateral : Nat → Euint32
  totalEncryptedDebt : Nat → Euint32
  isProtocolSolvent : Nat → Ebool
  fheCounter : Nat
  nextRequestId : Nat
  selfAddr : Nat

/-- State established by the constructor: the deployer is owner and a
provider, cooldown defaults to 60 seconds, no batch exists, every mapping
holds its zero default. -/
def constructorState (deployer : Addr) (selfAddr : Nat) : State where
  owner := deployer
  isProvider := fun a => if a = deployer then true else false
  lastSubmissionTime := fun _ => 0
  lastDecryptionRequestTime := fun _ => 0
  cooldownSeconds := 60
  paused := false
  currentBatchId := 0
  batchOpen := false
  decryptionContexts := fun _ => defaultContext
  encryptedCollateralAmounts := fun _ _ => euint32Uninit
  encryptedDebtAmounts := fun _ _ => euint32Uninit
  totalEncryptedCollateral := fun _ => euint32Uninit
  totalEncryptedDebt := fun _ => euint32Uninit
  isProtocolSolvent := fun _ => eboolUninit
  fheCounter := 0
  nextRequestId := 1
  selfAddr := selfAddr

/-- Model of `transferOwnership` (owner-only; sets `owner := newOwner`). -/
def transferOwnership (sender newOwner : Addr) (s : State) : Except Err State :=
  if sender ≠ s.owner then .error .NotOwner
  else .ok { s with owner := newOwner }

/-- Model of `addProvider` (owner-only, idempotent). -/
def addProvider (sender provider : Addr) (s : State) : Except Err State :=
  if sender ≠ s.owner then .error .NotOwner
  else if !(s.isProvider provider) then
    .ok { s with isProvider := fun a => if a = provider then true else s.isProvider a }
  else .ok s

/-- Model of `removeProvider` (owner-only; silently refuses to demote the
current owner). -/
def removeProvider (sender provider : Addr) (s : State) : Except Err State :=
  if sender ≠ s.owner then .error .NotOwner
  else if s.isProvider provider && provider != s.owner then
    .ok { s with isProvider := fun a => if a = provider then false else s.isProvider a }
  else .ok s

/-- Model of `setCooldownSeconds` (owner-only). -/
def setCooldownSeconds (sender : Addr) (newCooldownSeconds : Nat) (s : State) :
    Except Err State :=
  if sender ≠ s.owner then .error .NotOwner
  else .ok { s with cooldownSeconds := newCooldownSeconds }

/-- Model of `pause` (owner-only, fails when already paused). -/
def pause (sender : Addr) (s : State) : Except Err State :=
  if sender ≠ s.owner then .error .NotOwner
  else if s.paused then .error .PausedState
  else .ok { s with paused := true }

/-- Model of `unpause` (owner-only, unconditional). -/
def unpause (sender : Addr) (s : State) : Except Err State :=
  if sender ≠ s.owner then .error .NotOwner
  else .ok { s with paused := false }

/-- Model of `_isValidBatch`: any id in `[1, currentBatchId]`, open or
not. -/
def _isValidBatch (s : State) (batchId : Nat) : Bool :=
  decide (batchId > 0) && decide (batchId ≤ s.currentBatchId)

/-- Model of `openBatch` (owner-only, unpaused, fails if a batch is
already open).  Increments the counter, opens the new batch, and writes
the FHE encodings of `0`, `0` and `false` into its totals and flag, each
with a fresh ciphertext handle. -/
def openBatch (sender : Addr) (s : State) : Except Err State :=
  if sender ≠ s.owner then .error .NotOwner
  else if s.paused then .error .PausedState
  else if s.batchOpen then .error .InvalidBatchOperation
  else
    let newId := s.currentBatchId + 1
    let zeroCollat : Euint32 := ⟨s.fheCounter + 1, 0⟩
    let zeroDebt : Euint32 := ⟨s.fheCounter + 2, 0⟩
    let flagFalse : Ebool := ⟨s.fheCounter + 3, false⟩
    .ok { s with
      currentBatchId := newId
      batchOpen := true
      totalEncryptedCollateral := fun b =>
        if b = newId then zeroCollat else s.totalEncryptedCollateral b
      totalEncryptedDebt := fun b =>
        if b = newId then zeroDebt else s.totalEncryptedDebt b
      isProtocolSolvent := fun b =>
        if b = newId then flagFalse else s.isProtocolSolvent b
      fheCounter := s.fheCounter + 3 }

/-- Model of the internal `_calculateSolvency`: requires both totals to be
initialized, then overwrites the batch's flag with the fresh encrypted
result of `totalCollateral.ge(totalDebt)`. -/
def _calculateSolvency (batchId : Nat) (s : State) : Except Err State :=
  if !(s.totalEncryptedCollateral batchId).isInitialized then .error .NotInitialized
  else if !(s.totalEncryptedDebt batchId).isInitialized then .error .NotInitialized
  else
    let flag : Ebool :=
      ⟨s.fheCounter + 1,
        decide ((s.totalEncryptedDebt batchId).val ≤ (s.totalEncryptedCollateral batchId).val)⟩
    .ok { s with
      isProtocolSolvent := fun b => if b = batchId then flag else s.isProtocolSolvent b
      fheCounter := s.fheCounter + 1 }

/-- Model of `closeBatch` (owner-only, unpaused, fails if no batch is
open); marks the batch closed and recomputes its solvency. -/
def closeBatch (sender : Addr) (s : State) : Except Err State :=
  if sender ≠ s.owner then .error .NotOwner
  else if s.paused then .error .PausedState
  else if !s.batchOpen then .error .InvalidBatchOperation
  else _calculateSolvency s.currentBatchId { s with batchOpen := false }

/-- Model of `submitCollateral`: the modifier chain `onlyProvider`,
`whenNotPaused`, `respectCooldown(msg.sender, lastSubmissionTime)`, then
the batch-validity and ciphertext-initialization checks; on success stores
the per-participant ciphertext, homomorphically adds it into the running
collateral total, and records the cooldown timestamp. -/
def submitCollateral (sender : Addr) (now : Nat) (batchId : Nat)
    (encryptedAmount : Euint32) (s : State) : Except Err State :=
  if !(s.isProvider sender) then .error .NotProvider
  else if s.paused then .error .PausedState
  else if now < s.lastSubmissionTime sender + s.cooldownSeconds then .error .CooldownActive
  else if !(_isValidBatch s batchId) then .error .BatchClosedOrNonExistent
  else if !encryptedAmount.isInitialized then .error .NotInitialized
  else
    let newTotal : Euint32 :=
      ⟨s.fheCounter + 1,
        ((s.totalEncryptedCollateral batchId).val + encryptedAmount.val) % 2 ^ 32⟩
    .ok { s with
      encryptedCollateralAmounts := fun b a =>
        if b = batchId ∧ a = sender then encryptedAmount
        else s.encryptedCollateralAmounts b a
      totalEncryptedCollateral := fun b =>
        if b = batchId then newTotal else s.totalEncryptedCollateral b
      lastSubmissionTime := fun a => if a = sender then now else s.lastSubmissionTime a
      fheCounter := s.fheCounter + 1 }

/-- Model of `submitDebt`, mirror image of `submitCollateral` on the debt
side. -/
def submitDebt (sender : Addr) (now : Nat) (batchId : Nat)
    (encryptedAmount : Euint32) (s : State) : Except Err State :=
  if !(s.isProvider sender) then .error .NotProvider
  else if s.paused then .error .PausedState
  else if now < s.lastSubmissionTime sender + s.cooldownSeconds then .error .CooldownActive
  else if !(_isValidBatch s batchId) then .error .BatchClosedOrNonExistent
  else if !encryptedAmount.isInitialized then .error .NotInitialized
  else
    let newTotal : Euint32 :=
      ⟨s.fheCounter + 1,
        ((s.totalEncryptedDebt batchId).val + encryptedAmount.val) % 2 ^ 32⟩
    .ok { s with
      encryptedDebtAmounts := fun b a =>
        if b = batchId ∧ a = sender then encryptedAmount
        else s.encryptedDebtAmounts b a
      totalEncryptedDebt := fun b =>
        if b = batchId then newTotal else s.totalEncryptedDebt b
      lastSubmissionTime := fun a => if a = sender then now else s.lastSubmissionTime a
      fheCounter := s.fheCounter + 1 }

/-- Model of the external `calculateSolvency` (provider-only, unpaused,
submission-cooldown-checked without recording, valid batch required). -/
def calculateSolvency (sender : Addr) (now : Nat) (batchId : Nat) (s : State) :
    Except Err State :=
  if !(s.isProvider sender) then .error .NotProvider
  else if s.paused then .error .PausedState
  else if now < s.lastSubmissionTime sender + s.cooldownSeconds then .error .CooldownActive
  else if !(_isValidBatch s batchId) then .error .BatchClosedOrNonExistent
  else _calculateSolvency batchId s

/-- Model of `requestSolvencyDecryption`: provider-only, unpaused,
rate-limited by the decryption-request cooldown class; requires a valid
batch and an initialized solvency flag; fingerprints the flag's ciphertext
identifier, obtains a fresh request id from the gateway, and stores the
`DecryptionContext` keyed by it. -/
def requestSolvencyDecryption (sender : Addr) (now : Nat) (batchId : Nat) (s : State) :
    Except Err State :=
  if !(s.isProvider sender) then .error .NotProvider
  else if s.paused then .error .PausedState
  else if now < s.lastDecryptionRequestTime sender + s.cooldownSeconds then
    .error .CooldownActive
  else if !(_isValidBatch s batchId) then .error .BatchClosedOrNonExistent
  else if !(s.isProtocolSolvent batchId).isInitialized then .error .NotInitialized
  else
    let cts : List Nat := [(s.isProtocolSolvent batchId).toBytes32]
    let stateHash := _hashCiphertexts cts s.selfAddr
    let requestId := s.nextRequestId
    .ok { s with
      decryptionContexts := fun q =>
        if q = requestId then ⟨batchId, stateHash, false⟩ else s.decryptionContexts q
      lastDecryptionRequestTime := fun a =>
        if a = sender then now else s.lastDecryptionRequestTime a
      nextRequestId := s.nextRequestId + 1 }

/-- Model of `myCallback` (the `fulfillDecryption` surface).  The function
is `public` with no modifier, so `msg.sender` is received but never read;
`checkSigs` is the external `FHE.checkSignatures` capability.  Guard
order as in the source: replay guard, state-binding (fingerprint) check,
proof verification, payload-shape check, then finalization. -/
def myCallback (sender : Addr) (checkSigs : Nat → List Nat → List Nat → Bool)
    (requestId : Nat) (cleartexts proofBytes : List Nat) (s : State) :
    Except Err State :=
  if (s.decryptionContexts requestId).processed then .error .ReplayAttempt
  else
    let cts : List Nat :=
      [(s.isProtocolSolvent (s.decryptionContexts requestId).batchId).toBytes32]
    let currentHash := _hashCiphertexts cts s.selfAddr
    if currentHash ≠ (s.decryptionContexts requestId).stateHash then .error .StateMismatch
    else if !(checkSigs requestId cleartexts proofBytes) then .error .InvalidProof
    else if cleartexts.length ≠ 1 then .error .InvalidProof
    else .ok { s with
      decryptionContexts := fun q =>
        if q = requestId then { s.decryptionContexts requestId with processed := true }
        else s.decryptionContexts q }

/-- One external transaction against the contract: every external
function, with its caller, timestamp where read, and arguments. -/
inductive Call where
  | transferOwnership (sender newOwner : Addr)
  | addProvider (sender provider : Addr)
  | removeProvider (sender provider : Addr)
  | setCooldownSeconds (sender : Addr) (newCooldownSeconds : Nat)
  | pause (sender : Addr)
  | unpause (sender : Addr)
  | openBatch (sender : Addr)
  | closeBatch (sender : Addr)
  | submitCollateral (sender : Addr) (now batchId : Nat) (amt : Euint32)
  | submitDebt (sender : Addr) (now batchId : Nat) (amt : Euint32)
  | calculateSolvency (sender : Addr) (now batchId : Nat)
  | requestSolvencyDecryption (sender : Addr) (now batchId : Nat)
  | myCallback (sender : Addr) (checkSigs : Nat → List Nat → List Nat → Bool)
      (requestId : Nat) (cleartexts proofBytes : List Nat)

/-- Dispatch one transaction. -/
def exec : Call → State → Except Err State
  | .transferOwnership sender newOwner, s => transferOwnership sender newOwner s
  | .addProvider sender provider, s => addProvider sender provider s
  | .removeProvider sender provider, s => removeProvider sender provider s
  | .setCooldownSeconds sender v, s => setCooldownSeconds sender v s
  | .pause sender, s => pause sender s
  | .unpause sender, s => unpause sender s
  | .openBatch sender, s => openBatch sender s
  | .closeBatch sender, s => closeBatch sender s
  | .submitCollateral sender now b amt, s => submitCollateral sender now b amt s
  | .submitDebt sender now b amt, s => submitDebt sender now b amt s
  | .calculateSolvency sender now b, s => calculateSolvency sender now b s
  | .requestSolvencyDecryption sender now b, s => requestSolvencyDecryption sender now b s
  | .myCallback sender checkSigs r ct pf, s => myCallback sender checkSigs r ct pf s

/-- Total variant of `exec` used to name concrete successor states: a
reverted transaction leaves the state unchanged. -/
def execD (c : Call) (s : State) : State :=
  match exec c s with
  | .ok s' => s'
  | .error _ => s

/-- States reachable from some deployment by a sequence of successful
transactions. -/
inductive Reachable : State → Prop where
  | init (deployer : Addr) (selfAddr : Nat) : Reachable (constructorState deployer selfAddr)
  | step {s s' : State} {c : Call} : Reachable s → exec c s = .ok s' → Reachable s'

/-- Any-length successful-transaction sequences between two states. -/
inductive Steps : State → State → Prop where
  | refl (s : State) : Steps s s
  | tail {s s' s'' : State} {c : Call} : Steps s s' → exec c s' = .ok s'' → Steps s s''

/-- Invariant maintained by every transaction: (1) every request id not
yet handed out by the gateway still holds the default (all-zero) context;
(2) while a batch is open, its running totals are initialized ciphertexts
(so closing it can always compute solvency). -/
def Inv (s : State) : Prop :=
  (∀ r, s.nextRequestId ≤ r → s.decryptionContexts r = defaultContext) ∧
  (s.batchOpen = true →
    (s.totalEncryptedCollateral s.currentBatchId).isInitialized = true ∧
    (s.totalEncryptedDebt s.currentBatchId).isInitialized = true)

/-- One collateral or debt submission, as fed to `runSubs`. -/
structure SubOp where
  isCollateral : Bool
  sender : Addr
  now : Nat
  batchId : Nat
  amount : Euint32
deriving DecidableEq

/-- Dispatch one submission to `submitCollateral` or `submitDebt`. -/
def applySub (op : SubOp) (s : State) : Except Err State :=
  if op.isCollateral then submitCollateral op.sender op.now op.batchId op.amount s
  else submitDebt op.sender op.now op.batchId op.amount s

/-- Run a list of submissions left to right, stopping at the first
revert. -/
def runSubs : List SubOp → State → Except Err State
  | [], s => .ok s
  | op :: rest, s =>
    match applySub op s with
    | .ok s' => runSubs rest s'
    | .error e => .error e

/-- Plaintext a submission contributes to batch `b`'s collateral total. -/
def collatContrib (b : Nat) (op : SubOp) : Nat :=
  if op.isCollateral = true ∧ op.batchId = b then op.amount.val else 0

/-- Plaintext a submission contributes to batch `b`'s debt total. -/
def debtContrib (b : Nat) (op : SubOp) : Nat :=
  if op.isCollateral = false ∧ op.batchId = b then op.amount.val else 0

/-- Total variant of `runSubs` used to name concrete successor states. -/
def runSubsD (ops : List SubOp) (s : State) : State :=
  match runSubs ops s with
  | .ok s' => s'
  | .error _ => s

/-! ### Concrete states used by the witnesses

A deployment by address `0` at contract address `7`, followed by short
transaction histories exercising the protocol. -/

/-- Witness deployment: deployer/owner `0`, contract address `7`. -/
def wDeploy : State := constructorState 0 7

/-- Witness state after the owner opens batch 1. -/
def wOpen : State := execD (.openBatch 0) wDeploy

/-- Witness state after the owner requests decryption of batch 1's
solvency flag at time 100 (gateway hands out request id 1). -/
def wRequest : State := execD (.requestSolvencyDecryption 0 100 1) wOpen

/-- Witness state after the oracle fulfils request 1 with a valid proof
and the one-byte payload `[1]`. -/
def wDone : State := execD (.myCallback 5 (fun _ _ _ => true) 1 [1] []) wRequest

/-- Witness state where, after request 1 was stored, the solvency flag of
batch 1 was recomputed (fresh ciphertext handle), so the stored
fingerprint is stale. -/
def wStale : State := execD (.calculateSolvency 0 100 1) wRequest

/-- Witness state after ownership is transferred to address 1, which was
never added as a provider. -/
def wXfer : State := execD (.transferOwnership 0 1) wDeploy

/-- Witness state after the owner adds address 5 as a provider. -/
def wAdd : State := execD (.addProvider 0 5) wDeploy

/-- Witness state after the owner pauses the freshly deployed contract. -/
def wPaused : State := execD (.pause 0) wDeploy

/-- Witness state after batch 1 is closed again (solvency recomputed on
closing). -/
def wClosed : State := execD (.closeBatch 0) wOpen

/-- Witness state after one accepted collateral submission of 5 into
batch 1 at time 100. -/
def wSub1 : State := execD (.submitCollateral 0 100 1 ⟨9, 5⟩) wOpen

/-- Witness submission trace: collateral 10 and 7, then debt 4, all into
batch 1, spaced beyond the 60-second cooldown. -/
def wOps : List SubOp :=
  [⟨true, 0, 100, 1, ⟨21, 10⟩⟩, ⟨true, 0, 200, 1, ⟨22, 7⟩⟩, ⟨false, 0, 300, 1, ⟨23, 4⟩⟩]

/-- Witness state after running `wOps` from `wOpen`. -/
def wS5 : State := runSubsD wOps wOpen

/-- Witness state with collateral total 100 and debt total 80 in
batch 1. -/
def wCol100 : State :=
  runSubsD [⟨true, 0, 100, 1, ⟨21, 100⟩⟩, ⟨false, 0, 200, 1, ⟨22, 80⟩⟩] wOpen

/-- Witness state after computing solvency of batch 1 on `wCol100`. -/
def wFlagA : State := execD (.calculateSolvency 0 300 1) wCol100

/-- Witness state with collateral total 50 and debt total 80 in
batch 1. -/
def wCol50 : State :=
  runSubsD [⟨true, 0, 100, 1, ⟨21, 50⟩⟩, ⟨false, 0, 200, 1, ⟨22, 80⟩⟩] wOpen

/-- Witness state after computing solvency of batch 1 on `wCol50`. -/
def wFlagB : State := execD (.calculateSolvency 0 300 1) wCol50

/-! ### Success characterizations

For each operation, a lemma reading off from `f args s = .ok s'` which
guards passed and what the successor state is.  These drive every
invariant and frame argument below. -/

theorem transferOwnership_ok {sender n : Addr} {s s' : State}
    (h : transferOwnership sender n s = .ok s') :
    sender = s.owner ∧ s' = { s with owner := n } := by
  unfold transferOwnership at h
  split_ifs at h with h₁
  cases h
  exact ⟨not_ne_iff.mp h₁, rfl⟩

theorem addProvider_ok {sender p : Addr} {s s' : State}
    (h : addProvider sender p s = .ok s') :
    sender = s.owner ∧
      ((s.isProvider p = false ∧
          s' = { s with isProvider := fun a => if a = p then true else s.isProvider a }) ∨
        (s.isProvider p = true ∧ s' = s)) := by
  unfold addProvider at h
  split_ifs at h with h₁ h₂
  · cases h
    exact ⟨not_ne_iff.mp h₁, Or.inl ⟨by simpa using h₂, rfl⟩⟩
  · cases h
    exact ⟨not_ne_iff.mp h₁, Or.inr ⟨by simpa using h₂, rfl⟩⟩

theorem removeProvider_ok {sender p : Addr} {s s' : State}
    (h : removeProvider sender p s = .ok s') :
    sender = s.owner ∧
      ((s.isProvider p = true ∧ p ≠ s.owner ∧
          s' = { s with isProvider := fun a => if a = p then false else s.isProvider a }) ∨
        ((s.isProvider p = false ∨ p = s.owner) ∧ s' = s)) := by
  unfold removeProvider at h
  split_ifs at h with h₁ h₂
  · cases h
    simp only [Bool.and_eq_true, bne_iff_ne, ne_eq] at h₂
    exact ⟨not_ne_iff.mp h₁, Or.inl ⟨h₂.1, h₂.2, rfl⟩⟩
  · cases h
    simp only [Bool.and_eq_true, bne_iff_ne, ne_eq, not_and, Bool.not_eq_true] at h₂
    refine ⟨not_ne_iff.mp h₁, Or.inr ⟨?_, rfl⟩⟩
    by_cases hp : s.isProvider p = true
    · exact Or.inr (not_not.mp (h₂ hp))
    · exact Or.inl (by simpa using hp)

theorem setCooldownSeconds_ok {sender : Addr} {v : Nat} {s s' : State}
    (h : setCooldownSeconds sender v s = .ok s') :
    sender = s.owner ∧ s' = { s with cooldownSeconds := v } := by
  unfold setCooldownSeconds at h
  split_ifs at h with h₁
  cases h
  exact ⟨not_ne_iff.mp h₁, rfl⟩

theorem pause_ok {sender : Addr} {s s' : State} (h : pause sender s = .ok s') :
    sender = s.owner ∧ s.paused = false ∧ s' = { s with paused := true } := by
  unfold pause at h
  split_ifs at h with h₁ h₂
  cases h
  exact ⟨not_ne_iff.mp h₁, by simpa using h₂, rfl⟩

theorem unpause_ok {sender : Addr} {s s' : State} (h : unpause sender s = .ok s') :
    sender = s.owner ∧ s' = { s with paused := false } := by
  unfold unpause at h
  split_ifs at h with h₁
  cases h
  exact ⟨not_ne_iff.mp h₁, rfl⟩

theorem openBatch_ok {sender : Addr} {s s' : State} (h : openBatch sender s = .ok s') :
    sender = s.owner ∧ s.paused = false ∧ s.batchOpen = false ∧
      s' = { s with
        currentBatchId := s.currentBatchId + 1
        batchOpen := true
        totalEncryptedCollateral := fun b =>
          if b = s.currentBatchId + 1 then ⟨s.fheCounter + 1, 0⟩
          else s.totalEncryptedCollateral b
        totalEncryptedDebt := fun b =>
          if b = s.currentBatchId + 1 then ⟨s.fheCounter + 2, 0⟩
          else s.totalEncryptedDebt b
        isProtocolSolvent := fun b =>
          if b = s.currentBatchId + 1 then ⟨s.fheCounter + 3, false⟩
          else s.isProtocolSolvent b
        fheCounter := s.fheCounter + 3 } := by
  unfold openBatch at h
  split_ifs at h with h₁ h₂ h₃
  cases h
  exact ⟨not_ne_iff.mp h₁, by simpa using h₂, by simpa using h₃, rfl⟩

theorem _calculateSolvency_ok {batchId : Nat} {s s' : State}
    (h : _calculateSolvency batchId s = .ok s') :
    (s.totalEncryptedCollateral batchId).isInitialized = true ∧
      (s.totalEncryptedDebt batchId).isInitialized = true ∧
      s' = { s with
        isProtocolSolvent := fun b =>
          if b = batchId then
            ⟨s.fheCounter + 1,
              decide ((s.totalEncryptedDebt batchId).val ≤
                (s.totalEncryptedCollateral batchId).val)⟩
          else s.isProtocolSolvent b
        fheCounter := s.fheCounter + 1 } := by
  unfold _calculateSolvency at h
  split_ifs at h with h₁ h₂
  cases h
  exact ⟨by simpa using h₁, by simpa using h₂, rfl⟩

theorem closeBatch_ok {sender : Addr} {s s' : State} (h : closeBatch sender s = .ok s') :
    sender = s.owner ∧ s.paused = false ∧ s.batchOpen = true ∧
      _calculateSolvency s.currentBatchId { s with batchOpen := false } = .ok s' := by
  unfold closeBatch at h
  split_ifs at h with h₁ h₂ h₃
  exact ⟨not_ne_iff.mp h₁, by simpa using h₂, by simpa using h₃, h⟩

theorem submitCollateral_ok {sender : Addr} {now batchId : Nat} {amt : Euint32}
    {s s' : State} (h : submitCollateral sender now batchId amt s = .ok s') :
    s.isProvider sender = true ∧ s.paused = false ∧
      s.lastSubmissionTime sender + s.cooldownSeconds ≤ now ∧
      _isValidBatch s batchId = true ∧ amt.isInitialized = true ∧
      s' = { s with
        encryptedCollateralAmounts := fun b a =>
          if b = batchId ∧ a = sender then amt else s.encryptedCollateralAmounts b a
        totalEncryptedCollateral := fun b =>
          if b = batchId then
            ⟨s.fheCounter + 1,
              ((s.totalEncryptedCollateral batchId).val + amt.val) % 2 ^ 32⟩
          else s.totalEncryptedCollateral b
        lastSubmissionTime := fun a => if a = sender then now else s.lastSubmissionTime a
        fheCounter := s.fheCounter + 1 } := by
  unfold submitCollateral at h
  split_ifs at h with h₁ h₂ h₃ h₄ h₅
  cases h
  exact ⟨by simpa using h₁, by simpa using h₂, Nat.le_of_not_lt h₃,
    by simpa using h₄, by simpa using h₅, rfl⟩

theorem submitDebt_ok {sender : Addr} {now batchId : Nat} {amt : Euint32}
    {s s' : State} (h : submitDebt sender now batchId amt s = .ok s') :
    s.isProvider sender = true ∧ s.paused = false ∧
      s.lastSubmissionTime sender + s.cooldownSeconds ≤ now ∧
      _isValidBatch s batchId = true ∧ amt.isInitialized = true ∧
      s' = { s with
        encryptedDebtAmounts := fun b a =>
          if b = batchId ∧ a = sender then amt else s.encryptedDebtAmounts b a
        totalEncryptedDebt := fun b =>
          if b = batchId then
            ⟨s.fheCounter + 1,
              ((s.totalEncryptedDebt batchId).val + amt.val) % 2 ^ 32⟩
          else s.totalEncryptedDebt b
        lastSubmissionTime := fun a => if a = sender then now else s.lastSubmissionTime a
        fheCounter := s.fheCounter + 1 } := by
  unfold submitDebt at h
  split_ifs at h with h₁ h₂ h₃ h₄ h₅
  cases h
  exact ⟨by simpa using h₁, by simpa using h₂, Nat.le_of_not_lt h₃,
    by simpa using h₄, by simpa using h₅, rfl⟩

theorem calculateSolvency_ok {sender : Addr} {now batchId : Nat} {s s' : State}
    (h : calculateSolvency sender now batchId s = .ok s') :
    s.isProvider sender = true ∧ s.paused = false ∧
      s.lastSubmissionTime sender + s.cooldownSeconds ≤ now ∧
      _isValidBatch s batchId = true ∧ _calculateSolvency batchId s = .ok s' := by
  unfold calculateSolvency at h
  split_ifs at h with h₁ h₂ h₃ h₄
  exact ⟨by simpa using h₁, by simpa using h₂, Nat.le_of_not_lt h₃,
    by simpa using h₄, h⟩

theorem requestSolvencyDecryption_ok {sender : Addr} {now batchId : Nat} {s s' : State}
    (h : requestSolvencyDecryption sender now batchId s = .ok s') :
    s.isProvider sender = true ∧ s.paused = false ∧
      s.lastDecryptionRequestTime sender + s.cooldownSeconds ≤ now ∧
      _isValidBatch s batchId = true ∧
      (s.isProtocolSolvent batchId).isInitialized = true ∧
      s' = { s with
        decryptionContexts := fun q =>
          if q = s.nextRequestId then
            ⟨batchId,
              _hashCiphertexts [(s.isProtocolSolvent batchId).toBytes32] s.selfAddr,
              false⟩
          else s.decryptionContexts q
        lastDecryptionRequestTime := fun a =>
          if a = sender then now else s.lastDecryptionRequestTime a
        nextRequestId := s.nextRequestId + 1 } := by
  unfold requestSolvencyDecryption at h
  split_ifs at h with h₁ h₂ h₃ h₄ h₅
  cases h
  exact ⟨by simpa using h₁, by simpa using h₂, Nat.le_of_not_lt h₃,
    by simpa using h₄, by simpa using h₅, rfl⟩

theorem myCallback_ok {sender : Addr} {checkSigs : Nat → List Nat → List Nat → Bool}
    {requestId : Nat} {cleartexts proofBytes : List Nat} {s s' : State}
    (h : myCallback sender checkSigs requestId cleartexts proofBytes s = .ok s') :
    (s.decryptionContexts requestId).processed = false ∧
      _hashCiphertexts
          [(s.isProtocolSolvent (s.decryptionContexts requestId).batchId).toBytes32]
          s.selfAddr = (s.decryptionContexts requestId).stateHash ∧
      checkSigs requestId cleartexts proofBytes = true ∧
      cleartexts.length = 1 ∧
      s' = { s with
        decryptionContexts := fun q =>
          if q = requestId then { s.decryptionContexts requestId with processed := true }
          else s.decryptionContexts q } := by
  unfold myCallback at h
  simp only [] at h
  split_ifs at h with h₁ h₂ h₃ h₄
  cases h
  exact ⟨by simpa using h₁, not_ne_iff.mp h₂, by simpa using h₃,
    not_ne_iff.mp h₄, rfl⟩

/-! ### Reachability invariant -/

theorem inv_constructor (deployer : Addr) (selfAddr : Nat) :
    Inv (constructorState deployer selfAddr) :=
  ⟨fun _ _ => rfl, fun h => Bool.noConfusion h⟩

theorem exec_inv {c : Call} {s s' : State} (hInv : Inv s) (h : exec c s = .ok s') :
    Inv s' := by
  cases c with
  | transferOwnership sender n =>
      obtain ⟨-, rfl⟩ := transferOwnership_ok h
      exact hInv
  | addProvider sender p =>
      obtain ⟨-, hcase⟩ := addProvider_ok h
      rcases hcase with ⟨-, rfl⟩ | ⟨-, rfl⟩ <;> exact hInv
  | removeProvider sender p =>
      obtain ⟨-, hcase⟩ := removeProvider_ok h
      rcases hcase with ⟨-, -, rfl⟩ | ⟨-, rfl⟩ <;> exact hInv
  | setCooldownSeconds sender v =>
      obtain ⟨-, rfl⟩ := setCooldownSeconds_ok h
      exact hInv
  | pause sender =>
      obtain ⟨-, -, rfl⟩ := pause_ok h
      exact hInv
  | unpause sender =>
      obtain ⟨-, rfl⟩ := unpause_ok h
      exact hInv
  | openBatch sender =>
      obtain ⟨-, -, -, rfl⟩ := openBatch_ok h
      refine ⟨hInv.1, fun _ => ⟨?_, ?_⟩⟩ <;>
        simp [Euint32.isInitialized]
  | closeBatch sender =>
      obtain ⟨-, -, -, hcalc⟩ := closeBatch_ok h
      obtain ⟨-, -, rfl⟩ := _calculateSolvency_ok hcalc
      exact ⟨hInv.1, fun hb => absurd hb (by simp)⟩
  | submitCollateral sender now b amt =>
      obtain ⟨-, -, -, -, -, rfl⟩ := submitCollateral_ok h
      refine ⟨hInv.1, fun hb => ⟨?_, (hInv.2 hb).2⟩⟩
      by_cases hbid : s.currentBatchId = b
      · simp [hbid, Euint32.isInitialized]
      · simpa [hbid] using (hInv.2 hb).1
  | submitDebt sender now b amt =>
      obtain ⟨-, -, -, -, -, rfl⟩ := submitDebt_ok h
      refine ⟨hInv.1, fun hb => ⟨(hInv.2 hb).1, ?_⟩⟩
      by_cases hbid : s.currentBatchId = b
      · simp [hbid, Euint32.isInitialized]
      · simpa [hbid] using (hInv.2 hb).2
  | calculateSolvency sender now b =>
      obtain ⟨-, -, -, -, hcalc⟩ := calculateSolvency_ok h
      obtain ⟨-, -, rfl⟩ := _calculateSolvency_ok hcalc
      exact ⟨hInv.1, hInv.2⟩
  | requestSolvencyDecryption sender now b =>
      obtain ⟨-, -, -, -, -, rfl⟩ := requestSolvencyDecryption_ok h
      refine ⟨fun r hr => ?_, hInv.2⟩
      have hr' : s.nextRequestId + 1 ≤ r := hr
      have hne : r ≠ s.nextRequestId := by omega
      simp only [hne]
      simp only [if_false]
      exact hInv.1 r (by omega)
  | myCallback sender checkSigs requestId ct pf =>
      replace h : myCallback sender checkSigs requestId ct pf s = .ok s' := h
      obtain ⟨hproc, hhash, -, -, rfl⟩ := myCallback_ok h
      have hlt : requestId < s.nextRequestId := by
        by_contra hge
        have hd := hInv.1 requestId (Nat.le_of_not_lt hge)
        rw [hd] at hhash
        simp [_hashCiphertexts, defaultContext] at hhash
      refine ⟨fun r hr => ?_, hInv.2⟩
      have hr' : s.nextRequestId ≤ r := hr
      have hne : r ≠ requestId := by omega
      simp only [hne]
      simp only [if_false]
      exact hInv.1 r hr'

theorem exec_processed_mono {c : Call} {s s' : State} {r : Nat} (hInv : Inv s)
    (h : exec c s = .ok s')
    (hp : (s.decryptionContexts r).processed = true) :
    (s'.decryptionContexts r).processed = true := by
  cases c with
  | transferOwnership sender n =>
      obtain ⟨-, rfl⟩ := transferOwnership_ok h
      exact hp
  | addProvider sender p =>
      obtain ⟨-, hcase⟩ := addProvider_ok h
      rcases hcase with ⟨-, rfl⟩ | ⟨-, rfl⟩ <;> exact hp
  | removeProvider sender p =>
      obtain ⟨-, hcase⟩ := removeProvider_ok h
      rcases hcase with ⟨-, -, rfl⟩ | ⟨-, rfl⟩ <;> exact hp
  | setCooldownSeconds sender v =>
      obtain ⟨-, rfl⟩ := setCooldownSeconds_ok h
      exact hp
  | pause sender =>
      obtain ⟨-, -, rfl⟩ := pause_ok h
      exact hp
  | unpause sender =>
      obtain ⟨-, rfl⟩ := unpause_ok h
      exact hp
  | openBatch sender =>
      obtain ⟨-, -, -, rfl⟩ := openBatch_ok h
      exact hp
  | closeBatch sender =>
      obtain ⟨-, -, -, hcalc⟩ := closeBatch_ok h
      obtain ⟨-, -, rfl⟩ := _calculateSolvency_ok hcalc
      exact hp
  | submitCollateral sender now b amt =>
      obtain ⟨-, -, -, -, -, rfl⟩ := submitCollateral_ok h
      exact hp
  | submitDebt sender now b amt =>
      obtain ⟨-, -, -, -, -, rfl⟩ := submitDebt_ok h
      exact hp
  | calculateSolvency sender now b =>
      obtain ⟨-, -, -, -, hcalc⟩ := calculateSolvency_ok h
      obtain ⟨-, -, rfl⟩ := _calculateSolvency_ok hcalc
      exact hp
  | requestSolvencyDecryption sender now b =>
      obtain ⟨-, -, -, -, -, rfl⟩ := requestSolvencyDecryption_ok h
      have hne : r ≠ s.nextRequestId := by
        intro hr
        have hd := hInv.1 r (le_of_eq hr.symm)
        rw [hd] at hp
        exact absurd hp (by decide)
      show ((fun q => if q = s.nextRequestId then
          (⟨b, _hashCiphertexts [(s.isProtocolSolvent b).toBytes32] s.selfAddr, false⟩ :
            DecryptionContext)
        else s.decryptionContexts q) r).processed = true
      simp only [hne]
      simpa only [if_false] using hp
  | myCallback sender checkSigs requestId ct pf =>
      replace h : myCallback sender checkSigs requestId ct pf s = .ok s' := h
      obtain ⟨-, -, -, -, rfl⟩ := myCallback_ok h
      show ((fun q => if q = requestId then
          { s.decryptionContexts requestId with processed := true }
        else s.decryptionContexts q) r).processed = true
      by_cases hr : r = requestId
      · simp [hr]
      · simp only [hr]
        simpa only [if_false] using hp

theorem steps_inv_processed {s s' : State} {r : Nat} (hs : Steps s s') (hInv : Inv s) :
    Inv s' ∧
      ((s.decryptionContexts r).processed = true →
        (s'.decryptionContexts r).processed = true) := by
  induction hs with
  | refl => exact ⟨hInv, id⟩
  | tail hsteps hexec ih =>
      obtain ⟨ih1, ih2⟩ := ih
      exact ⟨exec_inv ih1 hexec, fun hp => exec_processed_mono ih1 hexec (ih2 hp)⟩

theorem reachable_inv {s : State} (h : Reachable s) : Inv s := by
  induction h with
  | init d a => exact inv_constructor d a
  | step hr hexec ih => exact exec_inv ih hexec

/-! ### Claim theorems -/

/-- C1: once a `fulfillDecryption` (`myCallback`) invocation has succeeded
and marked a request id `processed = true`, every later `fulfillDecryption`
invocation with that id — after any further sequence of successful
transactions, with any caller, verification outcome, cleartext payload and
proof — fails with `ReplayAttempt`; and a successful `myCallback` takes
its request from `processed = false` to `processed = true`, so the
transition happens exactly once. -/
theorem fulfillDecryption_replay_protection :
    (∀ (s s' : State) (r : Nat), Reachable s →
        (s.decryptionContexts r).processed = true → Steps s s' →
        ∀ (sender : Addr) (checkSigs : Nat → List Nat → List Nat → Bool)
          (cleartexts proofBytes : List Nat),
          myCallback sender checkSigs r cleartexts proofBytes s' =
            .error .ReplayAttempt) ∧
    (∀ (sender : Addr) (checkSigs : Nat → List Nat → List Nat → Bool) (r : Nat)
        (cleartexts proofBytes : List Nat) (s s' : State),
        myCallback sender checkSigs r cleartexts proofBytes s = .ok s' →
        (s.decryptionContexts r).processed = false ∧
          (s'.decryptionContexts r).processed = true) := by
  constructor
  · intro s s' r hreach hp hsteps sender checkSigs ct pf
    have hInv := reachable_inv hreach
    have hp' := (steps_inv_processed hsteps hInv).2 hp
    unfold myCallback
    simp [hp']
  · intro sender checkSigs r ct pf s s' h
    obtain ⟨hproc, -, -, -, rfl⟩ := myCallback_ok h
    exact ⟨hproc, by simp⟩

/-- Witness for C1: in the concrete history `wDeploy → wOpen → wRequest →
wDone`, request 1 is processed, and a replay with a different caller,
different payload and different proof fails with `ReplayAttempt`. -/
theorem fulfillDecryption_replay_protection_witness :
    (wDone.decryptionContexts 1).processed = true ∧
      myCallback 9 (fun _ _ _ => false) 1 [0, 0] [3] wDone =
        .error .ReplayAttempt := by
  have h1 : exec (.openBatch 0) wDeploy = .ok wOpen := rfl
  have h2 : exec (.requestSolvencyDecryption 0 100 1) wOpen = .ok wRequest := rfl
  have h3 : exec (.myCallback 5 (fun _ _ _ => true) 1 [1] []) wRequest = .ok wDone := rfl
  have hreach : Reachable wDone :=
    Reachable.step (Reachable.step (Reachable.step (Reachable.init 0 7) h1) h2) h3
  exact ⟨rfl, fulfillDecryption_replay_protection.1 wDone wDone 1 hreach rfl
    (Steps.refl wDone) 9 (fun _ _ _ => false) [0, 0] [3]⟩

/-- C2: if a stored, still-unprocessed request's fingerprint no longer
matches the fingerprint recomputed over the current solvency-flag
ciphertext identifier of the request's batch, then `myCallback` fails with
`StateMismatch` (hence never marks the request processed), for every
caller, payload and proof — including a verification capability that
accepts everything, i.e. even when the proof is valid for the new
ciphertext.  Second conjunct: a successful `requestSolvencyDecryption`
stores exactly the fingerprint of the flag ciphertext existing at request
time.  Third conjunct: the fingerprint is injective, so a changed
ciphertext identifier changes the fingerprint. -/
theorem fulfillDecryption_state_binding :
    (∀ (s : State) (sender : Addr) (checkSigs : Nat → List Nat → List Nat → Bool)
        (r : Nat) (cleartexts proofBytes : List Nat),
        (s.decryptionContexts r).processed = false →
        _hashCiphertexts
            [(s.isProtocolSolvent (s.decryptionContexts r).batchId).toBytes32]
            s.selfAddr ≠ (s.decryptionContexts r).stateHash →
        myCallback sender checkSigs r cleartexts proofBytes s =
          .error .StateMismatch) ∧
    (∀ (sender : Addr) (now b : Nat) (s s' : State),
        requestSolvencyDecryption sender now b s = .ok s' →
        s'.decryptionContexts s.nextRequestId =
          ⟨b, _hashCiphertexts [(s.isProtocolSolvent b).toBytes32] s.selfAddr,
            false⟩) ∧
    (∀ (l₁ l₂ : List Nat) (a₁ a₂ : Nat),
        _hashCiphertexts l₁ a₁ = _hashCiphertexts l₂ a₂ → l₁ = l₂ ∧ a₁ = a₂) := by
  refine ⟨?_, ?_, ?_⟩
  · intro s sender checkSigs r ct pf hproc hne
    unfold myCallback
    simp [hproc, hne]
  · intro sender now b s s' h
    obtain ⟨-, -, -, -, -, rfl⟩ := requestSolvencyDecryption_ok h
    simp
  · intro l₁ l₂ a₁ a₂ h
    exact ⟨congrArg Prod.fst h, congrArg Prod.snd h⟩

/-- Witness for C2: after request 1 was stored in `wRequest`, recomputing
batch 1's solvency (in `wStale`) gave the flag a fresh ciphertext handle,
so fulfilment fails with `StateMismatch` even though the supplied
verification capability accepts every proof. -/
theorem fulfillDecryption_state_binding_witness :
    (wStale.decryptionContexts 1).processed = false ∧
      myCallback 0 (fun _ _ _ => true) 1 [1] [] wStale = .error .StateMismatch :=
  ⟨rfl, fulfillDecryption_state_binding.1 wStale 0 (fun _ _ _ => true) 1 [1] []
    rfl (by decide)⟩

/-- Counterexample to C3 as stated: `transferOwnership` hands ownership to
address 1 without granting it provider status, so in the successor state
`wXfer` the owner is not a provider — the claim that every operation,
including `transferOwnership`, preserves owner-is-provider is false. -/
theorem owner_provider_counterexample :
    transferOwnership 0 1 wDeploy = .ok wXfer ∧ wXfer.owner = 1 ∧
      wXfer.isProvider wXfer.owner = false :=
  ⟨rfl, rfl, rfl⟩

/-- C3 (amended): `removeProvider` targeting the current owner is always a
no-op, and every operation other than a `transferOwnership` to a
non-provider preserves the owner-is-provider property; `transferOwnership`
preserves it exactly when the incoming owner already holds provider
status. -/
theorem owner_provider_amended :
    (∀ (sender : Addr) (s s' : State),
        removeProvider sender s.owner s = .ok s' → s' = s) ∧
    (∀ (c : Call) (s s' : State), exec c s = .ok s' →
        s.isProvider s.owner = true →
        (∀ sender n, c = Call.transferOwnership sender n → s.isProvider n = true) →
        s'.isProvider s'.owner = true) := by
  constructor
  · intro sender s s' h
    unfold removeProvider at h
    split_ifs at h with h₁ h₂
    · simp at h₂
    · cases h
      rfl
  · intro c s s' hexec hprov hgood
    cases c with
    | transferOwnership sender n =>
        obtain ⟨-, rfl⟩ := transferOwnership_ok hexec
        exact hgood sender n rfl
    | addProvider sender p =>
        obtain ⟨-, hcase⟩ := addProvider_ok hexec
        rcases hcase with ⟨-, rfl⟩ | ⟨-, rfl⟩
        · show (if s.owner = p then true else s.isProvider s.owner) = true
          split
          · rfl
          · exact hprov
        · exact hprov
    | removeProvider sender p =>
        obtain ⟨-, hcase⟩ := removeProvider_ok hexec
        rcases hcase with ⟨-, hne, rfl⟩ | ⟨-, rfl⟩
        · show (if s.owner = p then false else s.isProvider s.owner) = true
          rw [if_neg (fun hh => hne hh.symm)]
          exact hprov
        · exact hprov
    | setCooldownSeconds sender v =>
        obtain ⟨-, rfl⟩ := setCooldownSeconds_ok hexec
        exact hprov
    | pause sender =>
        obtain ⟨-, -, rfl⟩ := pause_ok hexec
        exact hprov
    | unpause sender =>
        obtain ⟨-, rfl⟩ := unpause_ok hexec
        exact hprov
    | openBatch sender =>
        obtain ⟨-, -, -, rfl⟩ := openBatch_ok hexec
        exact hprov
    | closeBatch sender =>
        obtain ⟨-, -, -, hcalc⟩ := closeBatch_ok hexec
        obtain ⟨-, -, rfl⟩ := _calculateSolvency_ok hcalc
        exact hprov
    | submitCollateral sender now b amt =>
        obtain ⟨-, -, -, -, -, rfl⟩ := submitCollateral_ok hexec
        exact hprov
    | submitDebt sender now b amt =>
        obtain ⟨-, -, -, -, -, rfl⟩ := submitDebt_ok hexec
        exact hprov
    | calculateSolvency sender now b =>
        obtain ⟨-, -, -, -, hcalc⟩ := calculateSolvency_ok hexec
        obtain ⟨-, -, rfl⟩ := _calculateSolvency_ok hcalc
        exact hprov
    | requestSolvencyDecryption sender now b =>
        obtain ⟨-, -, -, -, -, rfl⟩ := requestSolvencyDecryption_ok hexec
        exact hprov
    | myCallback sender checkSigs requestId ct pf =>
        replace hexec : myCallback sender checkSigs requestId ct pf s = .ok s' := hexec
        obtain ⟨-, -, -, -, rfl⟩ := myCallback_ok hexec
        exact hprov

/-- Witness for C3 (amended): removing the owner from the provider set on
the fresh deployment is a no-op, and after `addProvider 5` the owner is
still a provider. -/
theorem owner_provider_amended_witness :
    wDeploy = wDeploy ∧ wAdd.isProvider wAdd.owner = true :=
  ⟨owner_provider_amended.1 0 wDeploy wDeploy rfl,
    owner_provider_amended.2 (.addProvider 0 5) wDeploy wAdd rfl rfl
      (fun _ _ hc => Call.noConfusion hc)⟩

/-! ### Helper lemmas on the submission guards -/

theorem _isValidBatch_false_iff {s : State} {b : Nat} :
    _isValidBatch s b = false ↔ (b = 0 ∨ s.currentBatchId < b) := by
  simp only [_isValidBatch, Bool.and_eq_false_iff, decide_eq_false_iff_not, not_lt,
    Nat.pos_iff_ne_zero, not_not, not_le]

theorem submitCollateral_batch_err_iff {sender : Addr} {now b : Nat} {amt : Euint32}
    {s : State} (hprov : s.isProvider sender = true) (hpause : s.paused = false)
    (hcd : s.lastSubmissionTime sender + s.cooldownSeconds ≤ now) :
    submitCollateral sender now b amt s = .error .BatchClosedOrNonExistent ↔
      _isValidBatch s b = false := by
  unfold submitCollateral
  rw [if_neg (by simp [hprov]), if_neg (by simp [hpause]), if_neg (Nat.not_lt.mpr hcd)]
  by_cases hv : _isValidBatch s b = true
  · simp only [hv]
    simp only [Bool.not_true, Bool.false_eq_true, if_false]
    constructor
    · intro h
      split_ifs at h <;> simp_all
    · intro h
      simp at h
  · have hv' : _isValidBatch s b = false := by simpa using hv
    simp [hv']

theorem submitDebt_batch_err_iff {sender : Addr} {now b : Nat} {amt : Euint32}
    {s : State} (hprov : s.isProvider sender = true) (hpause : s.paused = false)
    (hcd : s.lastSubmissionTime sender + s.cooldownSeconds ≤ now) :
    submitDebt sender now b amt s = .error .BatchClosedOrNonExistent ↔
      _isValidBatch s b = false := by
  unfold submitDebt
  rw [if_neg (by simp [hprov]), if_neg (by simp [hpause]), if_neg (Nat.not_lt.mpr hcd)]
  by_cases hv : _isValidBatch s b = true
  · simp only [hv]
    simp only [Bool.not_true, Bool.false_eq_true, if_false]
    constructor
    · intro h
      split_ifs at h <;> simp_all
    · intro h
      simp at h
  · have hv' : _isValidBatch s b = false := by simpa using hv
    simp [hv']

theorem submitCollateral_succeeds {sender : Addr} {now b : Nat} {amt : Euint32}
    {s : State} (hprov : s.isProvider sender = true) (hpause : s.paused = false)
    (hcd : s.lastSubmissionTime sender + s.cooldownSeconds ≤ now)
    (hv : _isValidBatch s b = true) (hi : amt.isInitialized = true) :
    ∃ s', submitCollateral sender now b amt s = .ok s' := by
  unfold submitCollateral
  rw [if_neg (by simp [hprov]), if_neg (by simp [hpause]), if_neg (Nat.not_lt.mpr hcd),
    if_neg (by simp [hv]), if_neg (by simp [hi])]
  exact ⟨_, rfl⟩

theorem submitDebt_succeeds {sender : Addr} {now b : Nat} {amt : Euint32}
    {s : State} (hprov : s.isProvider sender = true) (hpause : s.paused = false)
    (hcd : s.lastSubmissionTime sender + s.cooldownSeconds ≤ now)
    (hv : _isValidBatch s b = true) (hi : amt.isInitialized = true) :
    ∃ s', submitDebt sender now b amt s = .ok s' := by
  unfold submitDebt
  rw [if_neg (by simp [hprov]), if_neg (by simp [hpause]), if_neg (Nat.not_lt.mpr hcd),
    if_neg (by simp [hv]), if_neg (by simp [hi])]
  exact ⟨_, rfl⟩

/-- C4: with the role, pause and cooldown guards passing, `submitCollateral`
and `submitDebt` fail with the lifecycle error `BatchClosedOrNonExistent`
exactly when the batch id is `0` or exceeds `currentBatchId`; and any id in
`[1, currentBatchId]` passes the batch-validity check regardless of the
batch-open flag, so with an initialized ciphertext the submission is
accepted — also into an already-closed batch. -/
theorem submission_batch_validity :
    ∀ (s : State) (sender : Addr) (now b : Nat) (amt : Euint32),
      s.isProvider sender = true → s.paused = false →
      s.lastSubmissionTime sender + s.cooldownSeconds ≤ now →
      ((submitCollateral sender now b amt s = .error .BatchClosedOrNonExistent ↔
          (b = 0 ∨ s.currentBatchId < b)) ∧
        (submitDebt sender now b amt s = .error .BatchClosedOrNonExistent ↔
          (b = 0 ∨ s.currentBatchId < b)) ∧
        (1 ≤ b → b ≤ s.currentBatchId → amt.isInitialized = true →
          (∃ s', submitCollateral sender now b amt s = .ok s') ∧
          ∃ s', submitDebt sender now b amt s = .ok s')) := by
  intro s sender now b amt hprov hpause hcd
  refine ⟨?_, ?_, ?_⟩
  · rw [submitCollateral_batch_err_iff hprov hpause hcd]
    exact _isValidBatch_false_iff
  · rw [submitDebt_batch_err_iff hprov hpause hcd]
    exact _isValidBatch_false_iff
  · intro h1 h2 hi
    have hv : _isValidBatch s b = true := by
      simp only [_isValidBatch, Bool.and_eq_true, decide_eq_true_eq]
      omega
    exact ⟨submitCollateral_succeeds hprov hpause hcd hv hi,
      submitDebt_succeeds hprov hpause hcd hv hi⟩

/-- Witness for C4: in `wClosed` batch 1 exists but is closed; submissions
into it are still accepted, while batch 2 (beyond the counter) draws the
lifecycle error. -/
theorem submission_batch_validity_witness :
    wClosed.batchOpen = false ∧ wClosed.isProvider 0 = true ∧
      wClosed.paused = false ∧
      wClosed.lastSubmissionTime 0 + wClosed.cooldownSeconds ≤ 100 ∧
      ((∃ s', submitCollateral 0 100 1 ⟨9, 5⟩ wClosed = .ok s') ∧
        ∃ s', submitDebt 0 100 1 ⟨9, 5⟩ wClosed = .ok s') ∧
      (submitCollateral 0 100 2 ⟨9, 5⟩ wClosed = .error .BatchClosedOrNonExistent ↔
        (2 = 0 ∨ wClosed.currentBatchId < 2)) :=
  ⟨rfl, rfl, rfl, by decide,
    (submission_batch_validity wClosed 0 100 1 ⟨9, 5⟩ rfl rfl (by decide)).2.2
      (by decide) (by decide) rfl,
    (submission_batch_validity wClosed 0 100 2 ⟨9, 5⟩ rfl rfl (by decide)).1⟩

/-! ### Helper lemmas for the running-total sum -/

theorem applySub_total {op : SubOp} {s s' : State} {b : Nat}
    (h : applySub op s = .ok s')
    (hc : (s.totalEncryptedCollateral b).val < 2 ^ 32)
    (hd : (s.totalEncryptedDebt b).val < 2 ^ 32) :
    ((s'.totalEncryptedCollateral b).val =
        ((s.totalEncryptedCollateral b).val + collatContrib b op) % 2 ^ 32 ∧
      (s'.totalEncryptedCollateral b).val < 2 ^ 32) ∧
      (s'.totalEncryptedDebt b).val =
        ((s.totalEncryptedDebt b).val + debtContrib b op) % 2 ^ 32 ∧
      (s'.totalEncryptedDebt b).val < 2 ^ 32 := by
  unfold applySub at h
  split_ifs at h with hk
  · obtain ⟨-, -, -, -, -, rfl⟩ := submitCollateral_ok h
    refine ⟨⟨?_, ?_⟩, ?_, ?_⟩
    · by_cases hb : b = op.batchId
      · subst hb
        simp [collatContrib, hk]
      · have hb' : ¬(op.batchId = b) := fun hh => hb hh.symm
        simp [collatContrib, hb, hb']
        omega
    · by_cases hb : b = op.batchId
      · subst hb
        simp only [if_pos rfl]
        exact Nat.mod_lt _ (by positivity)
      · simpa [hb] using hc
    · simp [debtContrib, hk]
      omega
    · exact hd
  · have hk' : op.isCollateral = false := by simpa using hk
    obtain ⟨-, -, -, -, -, rfl⟩ := submitDebt_ok h
    refine ⟨⟨?_, ?_⟩, ?_, ?_⟩
    · simp [collatContrib, hk']
      omega
    · exact hc
    · by_cases hb : b = op.batchId
      · subst hb
        simp [debtContrib, hk']
      · have hb' : ¬(op.batchId = b) := fun hh => hb hh.symm
        simp [debtContrib, hb, hb']
        omega
    · by_cases hb : b = op.batchId
      · subst hb
        simp only [if_pos rfl]
        exact Nat.mod_lt _ (by positivity)
      · simpa [hb] using hd

theorem runSubs_total :
    ∀ (ops : List SubOp) (s s' : State) (b : Nat),
      runSubs ops s = .ok s' →
      (s.totalEncryptedCollateral b).val < 2 ^ 32 →
      (s.totalEncryptedDebt b).val < 2 ^ 32 →
      (s'.totalEncryptedCollateral b).val =
          ((s.totalEncryptedCollateral b).val +
            (ops.map (collatContrib b)).sum) % 2 ^ 32 ∧
        (s'.totalEncryptedDebt b).val =
          ((s.totalEncryptedDebt b).val +
            (ops.map (debtContrib b)).sum) % 2 ^ 32 := by
  intro ops
  induction ops with
  | nil =>
      intro s s' b h hc hd
      unfold runSubs at h
      cases h
      simp only [List.map_nil, List.sum_nil, Nat.add_zero]
      omega
  | cons op rest ih =>
      intro s s' b h hc hd
      unfold runSubs at h
      cases happ : applySub op s with
      | error e => simp [happ] at h
      | ok s₁ =>
          simp only [happ] at h
          obtain ⟨⟨e1, e2⟩, e3, e4⟩ := applySub_total happ hc hd
          obtain ⟨f1, f2⟩ := ih s₁ s' b h e2 e4
          rw [f1, e1, f2, e3]
          simp [Nat.mod_add_mod, Nat.add_assoc]

/-- C5: if a list of submissions is all accepted from a state whose
running totals for batch `b` are in 32-bit range (as `openBatch`
establishes), the resulting running collateral (resp. debt) total of `b`
decodes to the homomorphic (mod `2 ^ 32`) sum of the initial total and
every accepted collateral (resp. debt) submission into `b`, resubmissions
included; and every accepted permutation of the same submissions yields
the same totals. -/
theorem running_total_homomorphic_sum :
    ∀ (ops : List SubOp) (s s' : State) (b : Nat),
      runSubs ops s = .ok s' →
      (s.totalEncryptedCollateral b).val < 2 ^ 32 →
      (s.totalEncryptedDebt b).val < 2 ^ 32 →
      ((s'.totalEncryptedCollateral b).val =
          ((s.totalEncryptedCollateral b).val +
            (ops.map (collatContrib b)).sum) % 2 ^ 32 ∧
        (s'.totalEncryptedDebt b).val =
          ((s.totalEncryptedDebt b).val +
            (ops.map (debtContrib b)).sum) % 2 ^ 32) ∧
      ∀ (ops' : List SubOp) (s'' : State), List.Perm ops' ops →
        runSubs ops' s = .ok s'' →
        (s''.totalEncryptedCollateral b).val = (s'.totalEncryptedCollateral b).val ∧
          (s''.totalEncryptedDebt b).val = (s'.totalEncryptedDebt b).val := by
  intro ops s s' b h hc hd
  refine ⟨runSubs_total ops s s' b h hc hd, ?_⟩
  intro ops' s'' hperm h'
  obtain ⟨g1, g2⟩ := runSubs_total ops' s s'' b h' hc hd
  obtain ⟨f1, f2⟩ := runSubs_total ops s s' b h hc hd
  rw [g1, f1, g2, f2, (hperm.map (collatContrib b)).sum_eq,
    (hperm.map (debtContrib b)).sum_eq]
  exact ⟨rfl, rfl⟩

/-- Witness for C5: the three accepted submissions of `wOps` (collateral
10 and 7, debt 4) leave batch 1 of `wS5` with the summed totals. -/
theorem running_total_homomorphic_sum_witness :
    ((wS5.totalEncryptedCollateral 1).val =
        ((wOpen.totalEncryptedCollateral 1).val +
          (wOps.map (collatContrib 1)).sum) % 2 ^ 32 ∧
      (wS5.totalEncryptedDebt 1).val =
        ((wOpen.totalEncryptedDebt 1).val +
          (wOps.map (debtContrib 1)).sum) % 2 ^ 32) ∧
      (wS5.totalEncryptedCollateral 1).val = 17 ∧
      (wS5.totalEncryptedDebt 1).val = 4 :=
  ⟨(running_total_homomorphic_sum wOps wOpen wS5 1 rfl (by decide) (by decide)).1,
    rfl, rfl⟩

/-- C6: a successful solvency computation overwrites the batch's flag with
the encrypted comparison `collateralTotal ≥ debtTotal` evaluated on the
running totals at call time (a snapshot: the totals themselves are left
unchanged), both through the internal `_calculateSolvency` and the
external `calculateSolvency`. -/
theorem solvency_flag_semantics :
    (∀ (b : Nat) (s s' : State), _calculateSolvency b s = .ok s' →
        (s'.isProtocolSolvent b).val =
            decide ((s.totalEncryptedDebt b).val ≤
              (s.totalEncryptedCollateral b).val) ∧
          (s'.isProtocolSolvent b).isInitialized = true ∧
          s'.totalEncryptedCollateral = s.totalEncryptedCollateral ∧
          s'.totalEncryptedDebt = s.totalEncryptedDebt) ∧
    (∀ (sender : Addr) (now b : Nat) (s s' : State),
        calculateSolvency sender now b s = .ok s' →
        (s'.isProtocolSolvent b).val =
          decide ((s.totalEncryptedDebt b).val ≤
            (s.totalEncryptedCollateral b).val)) := by
  constructor
  · intro b s s' h
    obtain ⟨-, -, rfl⟩ := _calculateSolvency_ok h
    exact ⟨by simp, by simp [Ebool.isInitialized], rfl, rfl⟩
  · intro sender now b s s' h
    obtain ⟨-, -, -, -, hcalc⟩ := calculateSolvency_ok h
    obtain ⟨-, -, rfl⟩ := _calculateSolvency_ok hcalc
    simp

/-- Witness for C6: with totals (100, 80) the recomputed flag decodes to
`true`; with totals (50, 80) it decodes to `false`. -/
theorem solvency_flag_semantics_witness :
    ((wFlagA.isProtocolSolvent 1).val =
        decide ((wCol100.totalEncryptedDebt 1).val ≤
          (wCol100.totalEncryptedCollateral 1).val) ∧
      (wFlagA.isProtocolSolvent 1).val = true) ∧
      (wFlagB.isProtocolSolvent 1).val =
        decide ((wCol50.totalEncryptedDebt 1).val ≤
          (wCol50.totalEncryptedCollateral 1).val) ∧
      (wFlagB.isProtocolSolvent 1).val = false :=
  ⟨⟨solvency_flag_semantics.2 0 300 1 wCol100 wFlagA rfl, rfl⟩,
    solvency_flag_semantics.2 0 300 1 wCol50 wFlagB rfl, rfl⟩

/-- C7: from any reachable unpaused state, for the owner: `openBatch`
fails (with `InvalidBatchOperation`) exactly when a batch is already open,
and otherwise increments the batch counter by one, marks the new batch
open, and initializes its totals to encrypted zero and its flag to
encrypted `false`; `closeBatch` fails exactly when no batch is open, and
otherwise closes the current batch and recomputes its solvency from the
totals at closing time. -/
theorem batch_lifecycle :
    ∀ (s : State), Reachable s → s.paused = false →
      ((s.batchOpen = true → openBatch s.owner s = .error .InvalidBatchOperation) ∧
        (s.batchOpen = false →
          ∃ s', openBatch s.owner s = .ok s' ∧
            s'.currentBatchId = s.currentBatchId + 1 ∧ s'.batchOpen = true ∧
            (s'.totalEncryptedCollateral s'.currentBatchId).val = 0 ∧
            (s'.totalEncryptedCollateral s'.currentBatchId).isInitialized = true ∧
            (s'.totalEncryptedDebt s'.currentBatchId).val = 0 ∧
            (s'.totalEncryptedDebt s'.currentBatchId).isInitialized = true ∧
            (s'.isProtocolSolvent s'.currentBatchId).val = false ∧
            (s'.isProtocolSolvent s'.currentBatchId).isInitialized = true) ∧
        (s.batchOpen = false → closeBatch s.owner s = .error .InvalidBatchOperation) ∧
        (s.batchOpen = true →
          ∃ s', closeBatch s.owner s = .ok s' ∧ s'.batchOpen = false ∧
            s'.currentBatchId = s.currentBatchId ∧
            (s'.isProtocolSolvent s.currentBatchId).val =
              decide ((s.totalEncryptedDebt s.currentBatchId).val ≤
                (s.totalEncryptedCollateral s.currentBatchId).val))) := by
  intro s hreach hpause
  have hInv := reachable_inv hreach
  refine ⟨?_, ?_, ?_, ?_⟩
  · intro hb
    unfold openBatch
    rw [if_neg (by simp), if_neg (by simp [hpause]), if_pos hb]
  · intro hb
    have hex : ∃ s', openBatch s.owner s = .ok s' := by
      unfold openBatch
      rw [if_neg (by simp), if_neg (by simp [hpause]), if_neg (by simp [hb])]
      exact ⟨_, rfl⟩
    obtain ⟨s', hs'⟩ := hex
    obtain ⟨-, -, -, rfl⟩ := openBatch_ok hs'
    exact ⟨_, hs', rfl, rfl, by simp, by simp [Euint32.isInitialized], by simp,
      by simp [Euint32.isInitialized], by simp, by simp [Ebool.isInitialized]⟩
  · intro hb
    unfold closeBatch
    rw [if_neg (by simp), if_neg (by simp [hpause]), if_pos (by simp [hb])]
  · intro hb
    obtain ⟨hc1, hc2⟩ := hInv.2 hb
    have hex : ∃ s',
        _calculateSolvency s.currentBatchId { s with batchOpen := false } = .ok s' := by
      unfold _calculateSolvency
      rw [if_neg (by simp [hc1]), if_neg (by simp [hc2])]
      exact ⟨_, rfl⟩
    obtain ⟨s', hs'⟩ := hex
    have hclose : closeBatch s.owner s = .ok s' := by
      unfold closeBatch
      rw [if_neg (by simp), if_neg (by simp [hpause]), if_neg (by simp [hb])]
      exact hs'
    obtain ⟨-, -, rfl⟩ := _calculateSolvency_ok hs'
    exact ⟨_, hclose, rfl, rfl, by simp⟩

/-- Witness for C7: in `wOpen` (reachable, unpaused, batch 1 open) a
second `openBatch` fails with the lifecycle error while `closeBatch`
succeeds, keeps the counter at 1, and recomputes the flag from the zero
totals. -/
theorem batch_lifecycle_witness :
    openBatch wOpen.owner wOpen = .error .InvalidBatchOperation ∧
      ∃ s', closeBatch wOpen.owner wOpen = .ok s' ∧ s'.batchOpen = false ∧
        s'.currentBatchId = wOpen.currentBatchId ∧
        (s'.isProtocolSolvent wOpen.currentBatchId).val =
          decide ((wOpen.totalEncryptedDebt wOpen.currentBatchId).val ≤
            (wOpen.totalEncryptedCollateral wOpen.currentBatchId).val) := by
  have h1 : exec (.openBatch 0) wDeploy = .ok wOpen := rfl
  have hreach : Reachable wOpen := Reachable.step (Reachable.init 0 7) h1
  exact ⟨(batch_lifecycle wOpen hreach rfl).1 rfl,
    (batch_lifecycle wOpen hreach rfl).2.2.2 rfl⟩

/-! ### Helper lemmas on the cooldown guard -/

theorem submitCollateral_cooldown_iff {sender : Addr} {b : Nat} {amt : Euint32}
    {s : State} (hprov : s.isProvider sender = true) (hpause : s.paused = false)
    (now : Nat) :
    submitCollateral sender now b amt s = .error .CooldownActive ↔
      now < s.lastSubmissionTime sender + s.cooldownSeconds := by
  unfold submitCollateral
  rw [if_neg (by simp [hprov]), if_neg (by simp [hpause])]
  by_cases hcd : now < s.lastSubmissionTime sender + s.cooldownSeconds
  · simp [hcd]
  · rw [if_neg hcd]
    simp only [hcd, iff_false]
    split_ifs <;> simp

theorem submitDebt_cooldown_iff {sender : Addr} {b : Nat} {amt : Euint32}
    {s : State} (hprov : s.isProvider sender = true) (hpause : s.paused = false)
    (now : Nat) :
    submitDebt sender now b amt s = .error .CooldownActive ↔
      now < s.lastSubmissionTime sender + s.cooldownSeconds := by
  unfold submitDebt
  rw [if_neg (by simp [hprov]), if_neg (by simp [hpause])]
  by_cases hcd : now < s.lastSubmissionTime sender + s.cooldownSeconds
  · simp [hcd]
  · rw [if_neg hcd]
    simp only [hcd, iff_false]
    split_ifs <;> simp

theorem submitCollateral_state {sender : Addr} {now b : Nat} {amt : Euint32}
    {s s' : State} (h : submitCollateral sender now b amt s = .ok s') :
    s'.isProvider = s.isProvider ∧ s'.paused = s.paused ∧ s'.owner = s.owner ∧
      s'.currentBatchId = s.currentBatchId ∧
      s'.cooldownSeconds = s.cooldownSeconds ∧
      s'.lastSubmissionTime sender = now := by
  obtain ⟨-, -, -, -, -, rfl⟩ := submitCollateral_ok h
  exact ⟨rfl, rfl, rfl, rfl, rfl, by simp⟩

/-- C8: with the role and pause guards passing, a submission at time `now`
fails with `CooldownActive` exactly when
`now < lastSubmissionTime[sender] + cooldownSeconds` (for both
`submitCollateral` and `submitDebt`); a successful submission records
`lastSubmissionTime[sender] = now` and leaves the cooldown window
unchanged; hence with cooldown 60 a second otherwise-valid submission 30
after an accepted one fails while one 61 after it succeeds; and
`setCooldownSeconds` replaces the window used by every later check. -/
theorem submission_cooldown :
    ∀ (s : State) (sender : Addr) (now b : Nat) (amt : Euint32),
      s.isProvider sender = true → s.paused = false →
      ((submitCollateral sender now b amt s = .error .CooldownActive ↔
          now < s.lastSubmissionTime sender + s.cooldownSeconds) ∧
        (submitDebt sender now b amt s = .error .CooldownActive ↔
          now < s.lastSubmissionTime sender + s.cooldownSeconds) ∧
        (∀ s', submitCollateral sender now b amt s = .ok s' →
          s'.lastSubmissionTime sender = now ∧
            s'.cooldownSeconds = s.cooldownSeconds) ∧
        (∀ s', submitCollateral sender now b amt s = .ok s' →
          s.cooldownSeconds = 60 →
          submitCollateral sender (now + 30) b amt s' = .error .CooldownActive ∧
            ∃ s'', submitCollateral sender (now + 61) b amt s' = .ok s'') ∧
        (∀ (v : Nat) (s' : State), setCooldownSeconds s.owner v s = .ok s' →
          s'.cooldownSeconds = v ∧
            s'.lastSubmissionTime = s.lastSubmissionTime)) := by
  intro s sender now b amt hprov hpause
  refine ⟨submitCollateral_cooldown_iff hprov hpause now,
    submitDebt_cooldown_iff hprov hpause now, ?_, ?_, ?_⟩
  · intro s' h
    exact ⟨(submitCollateral_state h).2.2.2.2.2,
      (submitCollateral_state h).2.2.2.2.1⟩
  · intro s' h h60
    obtain ⟨hip, hpa, -, hcb, hcd, hlast⟩ := submitCollateral_state h
    obtain ⟨-, -, -, hv, hi, -⟩ := submitCollateral_ok h
    have hprov' : s'.isProvider sender = true := by rw [hip]; exact hprov
    have hpause' : s'.paused = false := by rw [hpa]; exact hpause
    constructor
    · rw [submitCollateral_cooldown_iff hprov' hpause' (now + 30), hlast, hcd, h60]
      omega
    · refine submitCollateral_succeeds hprov' hpause' ?_ ?_ hi
      · rw [hlast, hcd, h60]
        omega
      · unfold _isValidBatch at hv ⊢
        rw [hcb]
        exact hv
  · intro v s' h
    obtain ⟨-, rfl⟩ := setCooldownSeconds_ok h
    exact ⟨rfl, rfl⟩

/-- Witness for C8: the collateral submission accepted at time 100 into
`wOpen` (cooldown 60) makes an identical submission at 130 fail with
`CooldownActive` while one at 161 is accepted. -/
theorem submission_cooldown_witness :
    wOpen.cooldownSeconds = 60 ∧
      submitCollateral 0 130 1 ⟨9, 5⟩ wSub1 = .error .CooldownActive ∧
      ∃ s'', submitCollateral 0 161 1 ⟨9, 5⟩ wSub1 = .ok s'' :=
  ⟨rfl, (submission_cooldown wOpen 0 100 1 ⟨9, 5⟩ rfl rfl).2.2.2.1 wSub1 rfl rfl⟩

/-- Counterexample to C9 as stated: while paused, an invocation of
`submitCollateral` by a non-provider fails with the authorization error
`NotProvider`, not with the pause error — the role guard precedes the
pause guard, so not every invocation while paused fails with
`PausedState`. -/
theorem pause_error_counterexample :
    wPaused.paused = true ∧ wPaused.isProvider 5 = false ∧
      submitCollateral 5 100 1 ⟨9, 5⟩ wPaused = .error .NotProvider ∧
      Err.NotProvider ≠ Err.PausedState :=
  ⟨rfl, rfl, rfl, by decide⟩

/-- C9 (amended): while paused, every invocation of `submitCollateral`,
`submitDebt`, `calculateSolvency` and `requestSolvencyDecryption` by a
caller with provider status, and of `openBatch` / `closeBatch` by the
owner, fails with the pause error (a caller failing the preceding role
guard fails with the authorization error instead); a reverted call leaves
no successor state, so nothing changes; and a successful `unpause` yields
exactly the old state with the pause flag cleared, every other stored
component unchanged. -/
theorem pause_blocks_amended :
    ∀ (s : State), s.paused = true →
      ((∀ (sender : Addr) (now b : Nat) (amt : Euint32),
          s.isProvider sender = true →
          submitCollateral sender now b amt s = .error .PausedState) ∧
        (∀ (sender : Addr) (now b : Nat) (amt : Euint32),
          s.isProvider sender = true →
          submitDebt sender now b amt s = .error .PausedState) ∧
        (∀ (sender : Addr) (now b : Nat), s.isProvider sender = true →
          calculateSolvency sender now b s = .error .PausedState) ∧
        (∀ (sender : Addr) (now b : Nat), s.isProvider sender = true →
          requestSolvencyDecryption sender now b s = .error .PausedState) ∧
        openBatch s.owner s = .error .PausedState ∧
        closeBatch s.owner s = .error .PausedState ∧
        (∀ (sender : Addr) (now b : Nat) (amt : Euint32),
          s.isProvider sender = false →
          submitCollateral sender now b amt s = .error .NotProvider)) ∧
      ∀ (sender : Addr) (s' : State), unpause sender s = .ok s' →
        s' = { s with paused := false } := by
  intro s hp
  refine ⟨⟨?_, ?_, ?_, ?_, ?_, ?_, ?_⟩, ?_⟩
  · intro sender now b amt hprov
    unfold submitCollateral
    rw [if_neg (by simp [hprov]), if_pos hp]
  · intro sender now b amt hprov
    unfold submitDebt
    rw [if_neg (by simp [hprov]), if_pos hp]
  · intro sender now b hprov
    unfold calculateSolvency
    rw [if_neg (by simp [hprov]), if_pos hp]
  · intro sender now b hprov
    unfold requestSolvencyDecryption
    rw [if_neg (by simp [hprov]), if_pos hp]
  · unfold openBatch
    rw [if_neg (by simp), if_pos hp]
  · unfold closeBatch
    rw [if_neg (by simp), if_pos hp]
  · intro sender now b amt hprov
    unfold submitCollateral
    rw [if_pos (by simp [hprov])]
  · intro sender s' h
    exact (unpause_ok h).2

/-- Witness for C9 (amended): in the paused state `wPaused` a provider
submission and the owner's `openBatch` fail with `PausedState`, and
unpausing returns exactly `wPaused` with the flag cleared. -/
theorem pause_blocks_amended_witness :
    wPaused.paused = true ∧ wPaused.isProvider 0 = true ∧
      submitCollateral 0 100 1 ⟨9, 5⟩ wPaused = .error .PausedState ∧
      openBatch wPaused.owner wPaused = .error .PausedState ∧
      execD (.unpause 0) wPaused = { wPaused with paused := false } :=
  ⟨rfl, rfl, (pause_blocks_amended wPaused rfl).1.1 0 100 1 ⟨9, 5⟩ rfl,
    (pause_blocks_amended wPaused rfl).1.2.2.2.2.1,
    (pause_blocks_amended wPaused rfl).2 0 (execD (.unpause 0) wPaused) rfl⟩

/-- C10: the fulfilment callback `myCallback` is `public` with no
modifier: its outcome (success or failure kind, and the successor state)
does not depend on the caller at all, and it neither reads nor writes the
pause flag, the cooldown timestamps, or the cooldown window — invoking it
on a state differing only in those components gives the same outcome with
the same resulting state up to those untouched components. -/
theorem callback_caller_independence :
    (∀ (s : State) (checkSigs : Nat → List Nat → List Nat → Bool) (r : Nat)
        (cleartexts proofBytes : List Nat) (sender₁ sender₂ : Addr),
        myCallback sender₁ checkSigs r cleartexts proofBytes s =
          myCallback sender₂ checkSigs r cleartexts proofBytes s) ∧
    (∀ (s : State) (sender : Addr) (checkSigs : Nat → List Nat → List Nat → Bool)
        (r : Nat) (cleartexts proofBytes : List Nat) (p : Bool),
        myCallback sender checkSigs r cleartexts proofBytes { s with paused := p } =
          Except.map (fun t => { t with paused := p })
            (myCallback sender checkSigs r cleartexts proofBytes s)) ∧
    (∀ (s : State) (sender : Addr) (checkSigs : Nat → List Nat → List Nat → Bool)
        (r : Nat) (cleartexts proofBytes : List Nat)
        (lst ldt : Addr → Nat) (cd : Nat),
        myCallback sender checkSigs r cleartexts proofBytes
            { s with
              lastSubmissionTime := lst
              lastDecryptionRequestTime := ldt
              cooldownSeconds := cd } =
          Except.map
            (fun t => { t with
              lastSubmissionTime := lst
              lastDecryptionRequestTime := ldt
              cooldownSeconds := cd })
            (myCallback sender checkSigs r cleartexts proofBytes s)) := by
  refine ⟨?_, ?_, ?_⟩
  · intro s checkSigs r ct pf sender₁ sender₂
    rfl
  · intro s sender checkSigs r ct pf p
    unfold myCallback
    have e1 : ({ s with paused := p } : State).decryptionContexts =
        s.decryptionContexts := rfl
    have e2 : ({ s with paused := p } : State).isProtocolSolvent =
        s.isProtocolSolvent := rfl
    have e3 : ({ s with paused := p } : State).selfAddr = s.selfAddr := rfl
    simp only [e1, e2, e3]
    split_ifs <;> rfl
  · intro s sender checkSigs r ct pf lst ldt cd
    unfold myCallback
    have e1 : ({ s with
        lastSubmissionTime := lst
        lastDecryptionRequestTime := ldt
        cooldownSeconds := cd } : State).decryptionContexts =
        s.decryptionContexts := rfl
    have e2 : ({ s with
        lastSubmissionTime := lst
        lastDecryptionRequestTime := ldt
        cooldownSeconds := cd } : State).isProtocolSolvent =
        s.isProtocolSolvent := rfl
    have e3 : ({ s with
        lastSubmissionTime := lst
        lastDecryptionRequestTime := ldt
        cooldownSeconds := cd } : State).selfAddr = s.selfAddr := rfl
    simp only [e1, e2, e3]
    split_ifs <;> rfl

end DeFiBuilderGameFHE
